import Mathlib

/-
Verification of the PM2.5 forecast-assessment engine
(pm25_forecast_assessment: daydataclass.py, data_downloads/airnow.py,
data_downloads/hrrr.py, metrics.py, experiment.py).

The Python code is shallowly embedded: dataframes become lists of records,
coordinates and concentrations become rationals, the floating-point
haversine / square-root kernels are abstracted as function parameters, and
IEEE NaN propagation (which the metric layer relies on through numpy) is
made explicit by the two-constructor type `Val`.  Python exceptions become
`Except PyErr`.
-/

/-- Python exception kinds observed by the embedded code paths. -/
inductive PyErr where
  | keyError : PyErr
  | valueError : PyErr
deriving DecidableEq

/-! ## Forecast entity cache lifecycle (daydataclass.py, `Forecast` / `GenericForecast`)

`Forecast.data` (daydataclass.py:48-53) lazily populates `_data`: when the
in-memory copy is absent it calls `download()` and then reads the cache file
back from disk.  `GenericForecast.download` (daydataclass.py:119-123) calls
the source adapter `download_fn` and writes the file only when
`is_downloaded()` is false, i.e. only when the cache file does not exist.

The state of one forecast entity plus its canonical cache path is modelled
by `FCState`: `disk` is the content of the raw-day cache file (if present),
`mem` is the `_data` field, and `calls` counts invocations of the source
adapter `download_fn`.  The adapter itself is modelled as the reading set
`fn` it would return. -/

/-- State of one Forecast entity: the on-disk cache file for its canonical
data path, the in-memory `_data` field, and how many times the source
adapter `download_fn` has been invoked. -/
structure FCState (ρ : Type) where
  disk : Option ρ
  mem : Option ρ
  calls : Nat
deriving DecidableEq

/-- `GenericForecast.download` (daydataclass.py:119-123): if the cache file
exists (`is_downloaded`), do nothing; otherwise invoke the source adapter
`download_fn` and write its result to the cache file. -/
def GenericForecast.download {ρ : Type} (fn : ρ) (s : FCState ρ) : FCState ρ :=
  if s.disk.isSome then s
  else { disk := some fn, mem := s.mem, calls := s.calls + 1 }

/-- `Forecast.data` (daydataclass.py:48-53): if `_data` is `None`, run
`download()` and then `pd.read_csv(self.datapath)`; cache the result in
`_data` and return it.  After `download` the cache file always exists, so
the `getD` fallback is never taken. -/
def Forecast.dataAccess {ρ : Type} (fn : ρ) (s : FCState ρ) : ρ × FCState ρ :=
  match s.mem with
  | some d => (d, s)
  | none =>
      let s1 := GenericForecast.download fn s
      let d := s1.disk.getD fn
      (d, { s1 with mem := some d })

/-- C1: once the raw-day cache file exists on disk, accessing `Forecast.data`
never invokes the source adapter again — neither on the same entity accessed
twice in the same process, nor on a fresh entity with identical identity
(same canonical path, hence same `disk`, with `_data = None`) — and every
such access returns exactly the reading set stored on disk. -/
theorem forecast_data_idempotent {ρ : Type} (fn x : ρ) (s : FCState ρ)
    (hdisk : s.disk = some x) (hmem : s.mem = none) :
    (Forecast.dataAccess fn s).1 = x ∧
    (Forecast.dataAccess fn s).2.calls = s.calls ∧
    (Forecast.dataAccess fn ((Forecast.dataAccess fn s).2)).1 = x ∧
    (Forecast.dataAccess fn ((Forecast.dataAccess fn s).2)).2.calls = s.calls ∧
    (Forecast.dataAccess fn
      ⟨(Forecast.dataAccess fn s).2.disk, none, (Forecast.dataAccess fn s).2.calls⟩).1 = x ∧
    (Forecast.dataAccess fn
      ⟨(Forecast.dataAccess fn s).2.disk, none, (Forecast.dataAccess fn s).2.calls⟩).2.calls
      = s.calls := by
  obtain ⟨disk, mem, calls⟩ := s
  simp only at hdisk hmem
  subst hdisk hmem
  simp [Forecast.dataAccess, GenericForecast.download]

/-- Concrete instance of `forecast_data_idempotent`: an entity whose cache
file holds the reading set `7` is accessed twice and also re-created fresh;
all accesses return `7` and the adapter-call counter stays at `3`. -/
theorem forecast_data_idempotent_witness :
    (Forecast.dataAccess 5 (⟨some 7, none, 3⟩ : FCState Nat)).1 = 7 ∧
    (Forecast.dataAccess 5 (⟨some 7, none, 3⟩ : FCState Nat)).2.calls = 3 ∧
    (Forecast.dataAccess 5 ((Forecast.dataAccess 5 (⟨some 7, none, 3⟩ : FCState Nat)).2)).1 = 7 ∧
    (Forecast.dataAccess 5 ((Forecast.dataAccess 5 (⟨some 7, none, 3⟩ : FCState Nat)).2)).2.calls
      = 3 ∧
    (Forecast.dataAccess 5
      ⟨(Forecast.dataAccess 5 (⟨some 7, none, 3⟩ : FCState Nat)).2.disk, none,
        (Forecast.dataAccess 5 (⟨some 7, none, 3⟩ : FCState Nat)).2.calls⟩).1 = 7 ∧
    (Forecast.dataAccess 5
      ⟨(Forecast.dataAccess 5 (⟨some 7, none, 3⟩ : FCState Nat)).2.disk, none,
        (Forecast.dataAccess 5 (⟨some 7, none, 3⟩ : FCState Nat)).2.calls⟩).2.calls = 3 :=
  forecast_data_idempotent 5 7 ⟨some 7, none, 3⟩ rfl rfl

/-! ## Spatial matcher (data_downloads/airnow.py, data_downloads/hrrr.py)

AirNow rows carry a station identifier `AQSID`; HRRR/CAMS/GEOS-CF rows are
bare grid points.  Coordinates and concentrations are rationals.  The
floating-point haversine kernel (sklearn `metric="haversine"` /
`haversine_distances`) returns great-circle central angles which the code
multiplies by the Earth radius 6371 km; the trigonometric computation is
abstracted as the function parameter `hav`, while the `* 6371` scaling and
the distance comparisons are kept explicit, exactly as in the source. -/

/-- One row of an AirNow reading set: columns AQSID, Latitude, Longitude,
ValidTime, PM25 (airnow.py `open_hour_df`). -/
structure AqsReading where
  aqsid : String
  lat : ℚ
  lon : ℚ
  validTime : Int
  pm25 : ℚ
deriving DecidableEq

/-- One row of a gridded reading set: columns Latitude, Longitude,
ValidTime, PM25 (hrrr.py `hrrr_data_download`). -/
structure Reading where
  lat : ℚ
  lon : ℚ
  validTime : Int
  pm25 : ℚ
deriving DecidableEq

/-- Helper for `drop_duplicates(subset="AQSID", keep="first")`: keep a row
iff its AQSID has not been seen earlier in the frame. -/
def dedupByAqsidGo : List AqsReading → List String → List AqsReading
  | [], _ => []
  | r :: rest, seen =>
      if r.aqsid ∈ seen then dedupByAqsidGo rest seen
      else r :: dedupByAqsidGo rest (r.aqsid :: seen)

/-- `aqs_readings.drop_duplicates(subset="AQSID", keep="first")`
(airnow.py:128): one row per unique station, first occurrence, original
order. -/
def dedupByAqsid (rows : List AqsReading) : List AqsReading :=
  dedupByAqsidGo rows []

/-- Great-circle central angle from a station row to the target, as computed
by the floating-point haversine kernel `hav`. -/
def distTo (hav : ℚ × ℚ → ℚ × ℚ → ℚ) (coords : ℚ × ℚ) (r : AqsReading) : ℚ :=
  hav (r.lat, r.lon) coords

/-- The `kneighbors` ranking (airnow.py:125-136): the unique stations
ordered by non-decreasing haversine angle to the target.  sklearn returns
the neighbors sorted by distance; insertion sort keeps the ranking stable
on ties. -/
def rankedStations (hav : ℚ × ℚ → ℚ × ℚ → ℚ) (coords : ℚ × ℚ)
    (rows : List AqsReading) : List AqsReading :=
  (dedupByAqsid rows).insertionSort
    (fun a b => distTo hav coords a ≤ distTo hav coords b)

/-- The `max_neighbors` nearest unique stations (`kneighbors` with
`n_neighbors=max_neighbors`). -/
def selectedStations (hav : ℚ × ℚ → ℚ × ℚ → ℚ) (coords : ℚ × ℚ)
    (rows : List AqsReading) (max_neighbors : Nat) : List AqsReading :=
  (rankedStations hav coords rows).take max_neighbors

/-- `np.where(distances * 6371 <= max_distance)` (airnow.py:137): the
selected stations whose distance in km is within `max_distance`. -/
def survivingStations (hav : ℚ × ℚ → ℚ × ℚ → ℚ) (coords : ℚ × ℚ)
    (rows : List AqsReading) (max_neighbors : Nat) (max_distance : ℚ) :
    List AqsReading :=
  (selectedStations hav coords rows max_neighbors).filter
    (fun a => 6371 * distTo hav coords a ≤ max_distance)

/-- `find_nearby_monitors` (airnow.py:116-141).  Deduplicate by AQSID, rank
the unique stations by haversine distance to the target (`kneighbors`),
keep the `max_neighbors` nearest, drop those beyond `max_distance` km, and
return every original row whose AQSID is among the survivors
(`aqs_readings["AQSID"].isin(...)`).  sklearn raises `ValueError` when
`fit` receives zero samples and when `kneighbors` is asked for more
neighbors than fitted samples (or for zero neighbors). -/
def find_nearby_monitors (hav : ℚ × ℚ → ℚ × ℚ → ℚ) (aqs_readings : List AqsReading)
    (coordinates : ℚ × ℚ) (max_distance : ℚ) (max_neighbors : Nat) :
    Except PyErr (List AqsReading) :=
  let aqs := dedupByAqsid aqs_readings
  if aqs.length = 0 then .error .valueError
  else if max_neighbors = 0 ∨ aqs.length < max_neighbors then .error .valueError
  else
    let ids := (survivingStations hav coordinates aqs_readings max_neighbors
        max_distance).map (fun a => a.aqsid)
    .ok (aqs_readings.filter (fun r => ids.contains r.aqsid))

/-- `find_nearby_predictions` (hrrr.py:70-85): keep exactly the rows whose
haversine distance (angle × 6371 km) to the target is at most
`max_distance`; `iloc` preserves the original row order and multiplicity. -/
def find_nearby_predictions (hav : ℚ × ℚ → ℚ × ℚ → ℚ) (predictions : List Reading)
    (coordinates : ℚ × ℚ) (max_distance : ℚ) : List Reading :=
  predictions.filter
    (fun r => 6371 * hav (r.lat, r.lon) coordinates ≤ max_distance)

/-- Deduplication returns a sub-sequence of the original frame. -/
theorem dedupByAqsidGo_sublist (rows : List AqsReading) (seen : List String) :
    (dedupByAqsidGo rows seen).Sublist rows := by
  induction rows generalizing seen with
  | nil => simp [dedupByAqsidGo]
  | cons r rest ih =>
      by_cases h : r.aqsid ∈ seen
      · exact List.Sublist.cons r (by simpa [dedupByAqsidGo, h] using ih seen)
      · simpa [dedupByAqsidGo, h] using (ih (r.aqsid :: seen)).cons₂ r

/-- Every station of the frame that was not already seen appears among the
deduplicated rows. -/
theorem dedupByAqsidGo_mem_map (rows : List AqsReading) (seen : List String)
    (r : AqsReading) (hr : r ∈ rows) (hs : r.aqsid ∉ seen) :
    r.aqsid ∈ (dedupByAqsidGo rows seen).map (fun a => a.aqsid) := by
  induction rows generalizing seen with
  | nil => cases hr
  | cons q rest ih =>
      by_cases h : q.aqsid ∈ seen
      · rcases List.mem_cons.mp hr with hr | hr
        · exact absurd (hr ▸ h) hs
        · simpa [dedupByAqsidGo, h] using ih seen hr hs
      · rcases List.mem_cons.mp hr with hr | hr
        · simp [dedupByAqsidGo, h, hr]
        · by_cases hq : r.aqsid = q.aqsid
          · simp [dedupByAqsidGo, h, hq]
          · have hmem := ih (q.aqsid :: seen) hr (by simp [hq, hs])
            simp only [dedupByAqsidGo, h, if_false, List.map_cons, List.mem_cons]
            exact Or.inr hmem

/-- The deduplicated rows carry pairwise-distinct station identifiers, none
of them previously seen. -/
theorem dedupByAqsidGo_nodup (rows : List AqsReading) (seen : List String) :
    ((dedupByAqsidGo rows seen).map (fun a => a.aqsid)).Nodup ∧
    ∀ s ∈ (dedupByAqsidGo rows seen).map (fun a => a.aqsid), s ∉ seen := by
  induction rows generalizing seen with
  | nil => simp [dedupByAqsidGo]
  | cons q rest ih =>
      by_cases h : q.aqsid ∈ seen
      · simpa [dedupByAqsidGo, h] using ih seen
      · obtain ⟨hnd, hout⟩ := ih (q.aqsid :: seen)
        refine ⟨?_, ?_⟩
        · simp only [dedupByAqsidGo, h, if_false, List.map_cons, List.nodup_cons]
          exact ⟨fun hmem => by simpa using hout _ hmem, hnd⟩
        · intro s hs
          simp only [dedupByAqsidGo, h, if_false, List.map_cons, List.mem_cons] at hs
          rcases hs with hs | hs
          · exact hs ▸ h
          · have := hout s hs
            simp only [List.mem_cons] at this
            tauto

/-- C2 (amended): for a Reading Set whose number of unique stations is at
least `max_neighbors ≥ 1`, nearest-K mode deduplicates by station identity
(first occurrence per AQSID), ranks the unique stations by non-decreasing
haversine distance (angle × 6371 km), keeps the `max_neighbors` nearest,
discards those farther than `max_distance` km, and returns exactly the
original rows of the surviving stations; the survivors number at most
`max_neighbors`, are all within `max_distance`, and are ranked by
non-decreasing distance.  (With fewer unique stations than `max_neighbors`
the sklearn `kneighbors` call raises `ValueError` instead — see the
counterexample.) -/
theorem find_nearby_monitors_nearestK (hav : ℚ × ℚ → ℚ × ℚ → ℚ)
    (rows : List AqsReading) (coords : ℚ × ℚ) (d : ℚ) (k : Nat)
    (hk1 : 1 ≤ k) (hk2 : k ≤ (dedupByAqsid rows).length) :
    find_nearby_monitors hav rows coords d k =
      .ok (rows.filter (fun r =>
        ((survivingStations hav coords rows k d).map (fun a => a.aqsid)).contains
          r.aqsid)) ∧
    (survivingStations hav coords rows k d).length ≤ k ∧
    (∀ a ∈ survivingStations hav coords rows k d, 6371 * distTo hav coords a ≤ d) ∧
    List.Sorted (fun a b => distTo hav coords a ≤ distTo hav coords b)
      (survivingStations hav coords rows k d) ∧
    (dedupByAqsid rows).Sublist rows ∧
    ((dedupByAqsid rows).map (fun a => a.aqsid)).Nodup ∧
    (∀ r ∈ rows, r.aqsid ∈ (dedupByAqsid rows).map (fun a => a.aqsid)) := by
  refine ⟨?_, ?_, ?_, ?_, ?_, ?_, ?_⟩
  · have h0 : ¬ ((dedupByAqsid rows).length = 0) := by omega
    have h1 : ¬ (k = 0 ∨ (dedupByAqsid rows).length < k) := by
      push_neg
      omega
    simp [find_nearby_monitors, h0, h1]
  · calc (survivingStations hav coords rows k d).length
        ≤ (selectedStations hav coords rows k).length :=
          List.length_filter_le _ _
      _ ≤ k := by
          simp only [selectedStations, List.length_take]
          exact inf_le_left
  · intro a ha
    simp only [survivingStations, List.mem_filter, decide_eq_true_eq] at ha
    exact ha.2
  · haveI : IsTotal AqsReading
        (fun a b => distTo hav coords a ≤ distTo hav coords b) :=
      ⟨fun a b => le_total _ _⟩
    haveI : IsTrans AqsReading
        (fun a b => distTo hav coords a ≤ distTo hav coords b) :=
      ⟨fun _ _ _ hab hbc => le_trans hab hbc⟩
    have hsorted := List.sorted_insertionSort
      (fun a b => distTo hav coords a ≤ distTo hav coords b) (dedupByAqsid rows)
    exact List.Pairwise.sublist (List.filter_sublist _)
      (List.Pairwise.sublist (List.take_sublist _ _) hsorted)
  · exact dedupByAqsidGo_sublist rows []
  · exact (dedupByAqsidGo_nodup rows []).1
  · intro r hr
    exact dedupByAqsidGo_mem_map rows [] r hr (by simp)

/-- Concrete instance of `find_nearby_monitors_nearestK`: one station,
`max_neighbors = 1`; the survivors number at most one. -/
theorem find_nearby_monitors_nearestK_witness :
    1 ≤ (dedupByAqsid [⟨"A", 1, 2, 13, 7⟩]).length ∧
    (survivingStations (fun _ _ => 0) (0, 0) [⟨"A", 1, 2, 13, 7⟩] 1 50).length ≤ 1 :=
  ⟨by decide,
    (find_nearby_monitors_nearestK (fun _ _ => 0) [⟨"A", 1, 2, 13, 7⟩] (0, 0) 50 1
      (by decide) (by decide)).2.1⟩

/-- C2 as frozen is false: a Reading Set with one station queried with
`max_neighbors = 2` makes `kneighbors` raise `ValueError` (more neighbors
requested than fitted samples) instead of returning up to two stations. -/
theorem find_nearby_monitors_too_few_stations :
    find_nearby_monitors (fun _ _ => 0) [⟨"A", 1, 2, 13, 7⟩] (0, 0) 50 2 =
      .error .valueError := rfl

/-- C3: radius mode returns exactly the rows of the Reading Set whose
haversine distance (angle × 6371 km) to the target is at most
`max_distance`: the result is a sub-sequence of the input (original order,
no dedup, no cap), every returned row is within range, every in-range row
is returned, and row multiplicities are preserved for in-range rows and
zero for out-of-range rows. -/
theorem find_nearby_predictions_radius (hav : ℚ × ℚ → ℚ × ℚ → ℚ)
    (preds : List Reading) (coords : ℚ × ℚ) (d : ℚ) :
    (find_nearby_predictions hav preds coords d).Sublist preds ∧
    (∀ r ∈ find_nearby_predictions hav preds coords d,
      6371 * hav (r.lat, r.lon) coords ≤ d) ∧
    (∀ r ∈ preds, 6371 * hav (r.lat, r.lon) coords ≤ d →
      r ∈ find_nearby_predictions hav preds coords d) ∧
    (∀ r : Reading, (find_nearby_predictions hav preds coords d).count r =
      if 6371 * hav (r.lat, r.lon) coords ≤ d then preds.count r else 0) := by
  refine ⟨List.filter_sublist _, ?_, ?_, ?_⟩
  · intro r hr
    simp only [find_nearby_predictions, List.mem_filter, decide_eq_true_eq] at hr
    exact hr.2
  · intro r hr h
    simp only [find_nearby_predictions, List.mem_filter, decide_eq_true_eq]
    exact ⟨hr, h⟩
  · intro r
    by_cases h : 6371 * hav (r.lat, r.lon) coords ≤ d
    · rw [if_pos h]
      exact List.count_filter (by simpa using h)
    · rw [if_neg h]
      refine List.count_eq_zero.mpr ?_
      intro hmem
      have hm := List.mem_filter.mp hmem
      exact h (of_decide_eq_true hm.2)

/-- Concrete instance of `find_nearby_predictions_radius`: a single in-range
grid row is kept, and the result is a sub-sequence of the input. -/
theorem find_nearby_predictions_radius_witness :
    ((⟨1, 2, 13, 7⟩ : Reading) ∈
      find_nearby_predictions (fun _ _ => 0) [⟨1, 2, 13, 7⟩] (0, 0) 50) ∧
    (find_nearby_predictions (fun _ _ => 0) [⟨1, 2, 13, 7⟩] (0, 0) 50).Sublist
      [⟨1, 2, 13, 7⟩] :=
  ⟨(find_nearby_predictions_radius (fun _ _ => 0) [⟨1, 2, 13, 7⟩] (0, 0) 50).2.2.1
      ⟨1, 2, 13, 7⟩ (by simp) (by norm_num),
    (find_nearby_predictions_radius (fun _ _ => 0) [⟨1, 2, 13, 7⟩] (0, 0) 50).1⟩

/-- C8 (amended): on the empty Reading Set, radius mode
(`find_nearby_predictions`) returns the empty Reading Set, but nearest-K
mode (`find_nearby_monitors`) raises `ValueError`, because sklearn `fit`
rejects an empty sample set. -/
theorem spatial_matcher_empty_input (hav : ℚ × ℚ → ℚ × ℚ → ℚ)
    (coords : ℚ × ℚ) (d : ℚ) (k : Nat) :
    find_nearby_predictions hav [] coords d = [] ∧
    find_nearby_monitors hav [] coords d k = .error .valueError :=
  ⟨rfl, rfl⟩

/-- C8 as frozen is false: nearest-K mode on the empty Reading Set raises
`ValueError` rather than returning an empty Reading Set. -/
theorem find_nearby_monitors_empty_error :
    find_nearby_monitors (fun _ _ => 0) [] (0, 0) 50 10 = .error .valueError := rfl

/-! ## Grid index codec (daydataclass.py, `HRRRForecast`)

`latlon_to_idx_convert` (daydataclass.py:245-259) loads the persisted index
file `hrrr-latlon-idx.csv` (one rounded `(lat, lon)` pair per line, written
with `fmt="%.6f"`), builds the dictionary `{(lat, lon): i}` over its
enumerated lines — later lines overwrite earlier ones — and replaces each
row's coordinates, rounded to six decimals by `float(f"{lat:.6f}")`, with
the looked-up integer `LatLonIdx`; a pair absent from the dictionary raises
`KeyError`.  `idx_to_latlon_convert` (daydataclass.py:261-270) replaces each
row's `LatLonIdx` by line number `i` of the index file.  Both the `%.6f`
formatting and the file round-trip round to the nearest multiple of
`10 ^ (-6)`, modelled by `round6`. -/

/-- A grid row after encoding: columns LatLonIdx, ValidTime, PM25. -/
structure EncReading where
  latLonIdx : Nat
  validTime : Int
  pm25 : ℚ
deriving DecidableEq

/-- Rounding to six decimal places, as performed by `f"{x:.6f}"` and
`np.savetxt(..., fmt="%.6f")`. -/
def round6 (q : ℚ) : ℚ := ((round (q * 1000000) : ℤ) : ℚ) / 1000000

/-- The dictionary `{(lat, lon): i for i, latlon in enumerate(latlon_idx)}`
(daydataclass.py:249), built line by line with ascending `i`; a repeated
pair keeps the last index. -/
def idxLookupGo : List (ℚ × ℚ) → ℚ × ℚ → Nat → Option Nat → Option Nat
  | [], _, _, acc => acc
  | q :: rest, p, i, acc => idxLookupGo rest p (i + 1) (if q = p then some i else acc)

/-- Dictionary lookup of a rounded coordinate pair in the persisted index
file. -/
def idxLookup (file : List (ℚ × ℚ)) (p : ℚ × ℚ) : Option Nat :=
  idxLookupGo file p 0 none

/-- Encoding of one row: `idx_lookup[(float(f"{lat:.6f}"), float(f"{lon:.6f}"))]`
(daydataclass.py:254-257); a pair missing from the dictionary raises
`KeyError`. -/
def encodeRow (file : List (ℚ × ℚ)) (r : Reading) : Except PyErr EncReading :=
  match idxLookup file (round6 r.lat, round6 r.lon) with
  | some i => .ok ⟨i, r.validTime, r.pm25⟩
  | none => .error .keyError

/-- `HRRRForecast.latlon_to_idx_convert` applied to a whole frame against a
given persisted index file. -/
def latlon_to_idx_convert (file : List (ℚ × ℚ)) : List Reading → Except PyErr (List EncReading)
  | [] => .ok []
  | r :: rest =>
      match encodeRow file r with
      | .error e => .error e
      | .ok en =>
          match latlon_to_idx_convert file rest with
          | .error e => .error e
          | .ok es => .ok (en :: es)

/-- Decoding of one row: `latlon_idx[prediction.LatLonIdx]`
(daydataclass.py:266-270); an out-of-range index raises. -/
def decodeRow (file : List (ℚ × ℚ)) (e : EncReading) : Except PyErr Reading :=
  match file[e.latLonIdx]? with
  | some p => .ok ⟨p.1, p.2, e.validTime, e.pm25⟩
  | none => .error .valueError

/-- `HRRRForecast.idx_to_latlon_convert` applied to a whole frame against a
given persisted index file. -/
def idx_to_latlon_convert (file : List (ℚ × ℚ)) : List EncReading → Except PyErr (List Reading)
  | [] => .ok []
  | e :: rest =>
      match decodeRow file e with
      | .error er => .error er
      | .ok r =>
          match idx_to_latlon_convert file rest with
          | .error er => .error er
          | .ok rs => .ok (r :: rs)

/-- The dictionary fold either leaves the accumulator (when the pair never
occurs) or returns an index, offset by `i`, at which the file holds the
pair. -/
theorem idxLookupGo_spec (file : List (ℚ × ℚ)) (p : ℚ × ℚ) (i : Nat)
    (acc : Option Nat) :
    (idxLookupGo file p i acc = acc ∧ p ∉ file) ∨
    (∃ k, idxLookupGo file p i acc = some (i + k) ∧ file[k]? = some p) := by
  induction file generalizing i acc with
  | nil => exact Or.inl ⟨rfl, by simp⟩
  | cons q rest ih =>
      by_cases hq : q = p
      · subst hq
        rcases ih (i + 1) (some i) with ⟨heq, _⟩ | ⟨k, hk, hget⟩
        · refine Or.inr ⟨0, ?_, by simp⟩
          show idxLookupGo rest q (i + 1) (if q = q then some i else acc) = some (i + 0)
          rw [if_pos rfl, heq]
          simp
        · refine Or.inr ⟨k + 1, ?_, by simpa using hget⟩
          show idxLookupGo rest q (i + 1) (if q = q then some i else acc) = some (i + (k + 1))
          rw [if_pos rfl, hk]
          congr 1
          omega
      · rcases ih (i + 1) acc with ⟨heq, hout⟩ | ⟨k, hk, hget⟩
        · refine Or.inl ⟨?_, ?_⟩
          · show idxLookupGo rest p (i + 1) (if q = p then some i else acc) = acc
            rw [if_neg hq, heq]
          · intro hp
            rcases List.mem_cons.mp hp with hp | hp
            · exact hq hp.symm
            · exact hout hp
        · refine Or.inr ⟨k + 1, ?_, by simpa using hget⟩
          show idxLookupGo rest p (i + 1) (if q = p then some i else acc) = some (i + (k + 1))
          rw [if_neg hq, hk]
          congr 1
          omega

/-- A pair present in the index file is found by the dictionary lookup, and
the returned line indeed holds the pair. -/
theorem idxLookup_mem (file : List (ℚ × ℚ)) (p : ℚ × ℚ) (hp : p ∈ file) :
    ∃ j, idxLookup file p = some j ∧ file[j]? = some p := by
  rcases idxLookupGo_spec file p 0 none with ⟨_, hout⟩ | ⟨k, hk, hget⟩
  · exact absurd hp hout
  · exact ⟨k, by simpa [idxLookup] using hk, by simpa using hget⟩

/-- Rounding to six decimals moves a coordinate by at most `10 ^ (-6)`. -/
theorem abs_round6_sub_le (q : ℚ) : |round6 q - q| ≤ 1 / 1000000 := by
  have h := abs_sub_round (q * 1000000)
  have heq : round6 q - q = -((q * 1000000 - ((round (q * 1000000) : ℤ) : ℚ)) / 1000000) := by
    rw [round6]
    ring
  rw [heq, abs_neg, abs_div]
  have h6 : |(1000000 : ℚ)| = 1000000 := by norm_num
  rw [h6]
  calc |q * 1000000 - ((round (q * 1000000) : ℤ) : ℚ)| / 1000000
      ≤ (1 / 2) / 1000000 := by gcongr
    _ ≤ 1 / 1000000 := by norm_num

/-- C4: against a persisted index file that covers the Reading Set's rounded
coordinate pairs, encoding (replace `(Latitude, Longitude)` by `LatLonIdx`)
followed by decoding (restore `(Latitude, Longitude)` from the same file)
reproduces every row's original coordinates up to six-decimal rounding —
hence within `10 ^ (-6)` — with `ValidTime` and `PM25` untouched; and the
encoder is a pure function of the persisted file, so identical coordinate
pairs receive identical integer indices in any run against the same file. -/
theorem grid_index_roundtrip (file : List (ℚ × ℚ)) (rows : List Reading)
    (hmem : ∀ r ∈ rows, (round6 r.lat, round6 r.lon) ∈ file) :
    (latlon_to_idx_convert file rows).bind (idx_to_latlon_convert file) =
      .ok (rows.map (fun r => ⟨round6 r.lat, round6 r.lon, r.validTime, r.pm25⟩)) ∧
    (∀ q : ℚ, |round6 q - q| ≤ 1 / 1000000) ∧
    (∀ r s : Reading, r.lat = s.lat → r.lon = s.lon →
      (encodeRow file r).map (fun e => e.latLonIdx) =
        (encodeRow file s).map (fun e => e.latLonIdx)) := by
  refine ⟨?_, abs_round6_sub_le, ?_⟩
  · induction rows with
    | nil => rfl
    | cons r rest ih =>
        obtain ⟨j, hj, hget⟩ := idxLookup_mem file (round6 r.lat, round6 r.lon)
          (hmem r (List.mem_cons_self r rest))
        have henc : encodeRow file r = .ok ⟨j, r.validTime, r.pm25⟩ := by
          simp [encodeRow, hj]
        have ih2 := ih (fun x hx => hmem x (List.mem_cons_of_mem _ hx))
        cases hrest : latlon_to_idx_convert file rest with
        | error e =>
            rw [hrest] at ih2
            simp [Except.bind] at ih2
        | ok es =>
            rw [hrest] at ih2
            have hdec : idx_to_latlon_convert file es =
                .ok (rest.map (fun x => ⟨round6 x.lat, round6 x.lon, x.validTime, x.pm25⟩)) := by
              simpa [Except.bind] using ih2
            have hdrow : decodeRow file ⟨j, r.validTime, r.pm25⟩ =
                .ok ⟨round6 r.lat, round6 r.lon, r.validTime, r.pm25⟩ := by
              simp [decodeRow, hget]
            simp [latlon_to_idx_convert, henc, hrest, idx_to_latlon_convert,
              hdrow, hdec, Except.bind]
  · intro r s hlat hlon
    unfold encodeRow
    rw [hlat, hlon]
    cases idxLookup file (round6 s.lat, round6 s.lon) <;> rfl

/-- Concrete instance of `grid_index_roundtrip`: one grid row with integer
coordinates round-trips through the one-line index file. -/
theorem grid_index_roundtrip_witness :
    (latlon_to_idx_convert [((3 : ℚ), (4 : ℚ))] [⟨3, 4, 13, 7⟩]).bind
        (idx_to_latlon_convert [((3 : ℚ), (4 : ℚ))]) =
      .ok (([⟨3, 4, 13, 7⟩] : List Reading).map
        (fun r => ⟨round6 r.lat, round6 r.lon, r.validTime, r.pm25⟩)) :=
  (grid_index_roundtrip [((3 : ℚ), (4 : ℚ))] [⟨3, 4, 13, 7⟩]
    (by
      intro r hr
      simp only [List.mem_singleton] at hr
      subst hr
      norm_num [round6, round_eq])).1

/-! ## Metric layer (metrics.py)

The metrics run on numpy float arrays, where a missing hour produces NaN
(`np.mean` of an empty selection) and NaN propagates through arithmetic,
`np.mean`, `np.min`/`np.max` and `np.argmin` (which returns the index of
the first NaN).  `Val` makes this NaN discipline explicit over exact
rationals; the floating-point square root of `RMSE` is abstracted as the
function parameter `sqrtFn`. -/

/-- A numpy float64 scalar: either a (rational) number or NaN. -/
inductive Val where
  | num : ℚ → Val
  | nan : Val
deriving DecidableEq

/-- Float subtraction: NaN propagates. -/
def Val.sub : Val → Val → Val
  | num a, num b => num (a - b)
  | _, _ => nan

/-- Float multiplication: NaN propagates. -/
def Val.mul : Val → Val → Val
  | num a, num b => num (a * b)
  | _, _ => nan

/-- `np.sqrt` with the floating-point kernel abstracted; `np.sqrt(nan)` is
NaN. -/
def Val.sqrtV (sqrtFn : ℚ → ℚ) : Val → Val
  | num a => num (sqrtFn a)
  | nan => nan

/-- Whether the scalar is NaN. -/
def Val.isNan : Val → Bool
  | num _ => false
  | nan => true

/-- IEEE `x > t`: false when `x` is NaN. -/
def Val.gtB : Val → ℚ → Bool
  | num a, t => decide (t < a)
  | nan, _ => false

/-- The numeric payload; only meaningful on NaN-free data. -/
def Val.unnum : Val → ℚ
  | num a => a
  | nan => 0

/-- `np.mean`: NaN if the array is empty (mean of empty slice) or contains a
NaN; otherwise sum over length. -/
def meanV (xs : List Val) : Val :=
  if xs.isEmpty || xs.any Val.isNan then .nan
  else .num ((xs.map Val.unnum).sum / xs.length)

/-- Running minimum of `np.min`: the accumulator is replaced when the next
element `v` fails `v >= cur`, so a NaN replaces it and then sticks. -/
def minVAux : List Val → ℚ → Val
  | [], cur => .num cur
  | .nan :: _, _ => .nan
  | .num q :: rest, cur => minVAux rest (if cur ≤ q then cur else q)

/-- `np.min`: NaN-propagating minimum.  The empty case raises in numpy and
is never reached (evaluation windows are non-empty); it is modelled as NaN. -/
def minV : List Val → Val
  | [] => .nan
  | .nan :: _ => .nan
  | .num q :: rest => minVAux rest q

/-- Running maximum of `np.max`: the accumulator is replaced when the next
element `v` fails `v <= cur`. -/
def maxVAux : List Val → ℚ → Val
  | [], cur => .num cur
  | .nan :: _, _ => .nan
  | .num q :: rest, cur => maxVAux rest (if q ≤ cur then cur else q)

/-- `np.max`: NaN-propagating maximum; empty case as in `minV`. -/
def maxV : List Val → Val
  | [] => .nan
  | .nan :: _ => .nan
  | .num q :: rest => maxVAux rest q

/-- Loop of `np.argmin`: the current best is replaced when the next element
`v` fails `v >= cur`; a NaN triggers the replacement and breaks the loop,
so the first NaN's index is returned. -/
def argminAux : List Val → ℚ → Nat → Nat → Nat
  | [], _, _, best => best
  | .nan :: _, _, i, _ => i
  | .num q :: rest, cur, i, best =>
      if cur ≤ q then argminAux rest cur (i + 1) best
      else argminAux rest q (i + 1) i

/-- `np.argmin`: index of the first NaN if any, else of the first minimum.
The empty case raises in numpy and is never reached. -/
def argminV : List Val → Nat
  | [] => 0
  | .nan :: _ => 0
  | .num q :: rest => argminAux rest q 1 0

/-- `np.mean(readings.loc[readings.ValidTime == h].PM25)` (metrics.py:27,
31, 57, 61, 92, 96): the average of the PM25 column over the rows at hour
`h`; NaN when no row matches.  A location-data frame is a list of
`(ValidTime, PM25)` pairs. -/
def hourMean (rows : List (Int × ℚ)) (h : Int) : Val :=
  let sel := (rows.filter (fun x => x.1 == h)).map (fun x => x.2)
  if sel.isEmpty then .nan else .num (sel.sum / sel.length)

/-- `hours_to_include: Iterable[int] = range(13, 36)` (metrics.py:20, 51,
85): the default evaluation window, hours 13 to 35. -/
def hoursToInclude : List Int := (List.range 23).map (fun i => 13 + (i : Int))

/-- A Daily Data aggregator as the metrics see it: the configured source
names (`DailyData._forecasts`) and, per source, the location-data frame
its Forecast entity delivers. -/
structure DailyDataM where
  forecastList : List String
  locData : String → List (Int × ℚ)

/-- The source names `DailyData.build_forecast` accepts
(daydataclass.py:294-306); any other name raises `ValueError`. -/
def knownForecasts : List String := ["airnow", "hrrr", "cams", "geoscf", "naqfc"]

/-- Helper for dict-comprehension key semantics: unique keys in first-
occurrence order. -/
def dedupFirstGo : List String → List String → List String
  | [], _ => []
  | s :: rest, seen =>
      if s ∈ seen then dedupFirstGo rest seen
      else s :: dedupFirstGo rest (s :: seen)

/-- Unique keys of a dict comprehension, in first-occurrence order. -/
def dedupFirst (l : List String) : List String := dedupFirstGo l []

/-- `DailyData.forecasts` (daydataclass.py:290-292): the dict comprehension
`{f: self.build_forecast(f) for f in self._forecasts}`; building an unknown
name raises `ValueError`, otherwise the keys are the unique configured
names. -/
def DailyData.forecastsKeys (dd : DailyDataM) : Except PyErr (List String) :=
  if ∀ f ∈ dd.forecastList, f ∈ knownForecasts then
    .ok (dedupFirst dd.forecastList)
  else .error .valueError

/-- `day_data.forecasts.pop("airnow")` (metrics.py:24, 54, 89): build the
forecasts dict, then pop the observation source — `KeyError` when "airnow"
is not among the keys; the remaining keys are the forecast sources to
score. -/
def popAirnow (dd : DailyDataM) : Except PyErr (List String) :=
  match DailyData.forecastsKeys dd with
  | .error e => .error e
  | .ok keys =>
      if "airnow" ∈ keys then .ok (keys.filter (fun s => s ≠ "airnow"))
      else .error .keyError

/-- The observed series: per window hour, the average AirNow reading
(metrics.py:26-29). -/
def obsSeries (dd : DailyDataM) (hours : List Int) : List Val :=
  hours.map (hourMean (dd.locData "airnow"))

/-- A forecast source's predicted series over the window
(metrics.py:30-33). -/
def predSeries (dd : DailyDataM) (hours : List Int) (f : String) : List Val :=
  hours.map (hourMean (dd.locData f))

/-- `RMSE.__call__` (metrics.py:23-45): per source,
`sqrt(mean((observed - predicted) ** 2))` over the window, plus a
"persistence" entry using the constant hour-`persistence_hour` AirNow
average. -/
def RMSE.call (sqrtFn : ℚ → ℚ) (hours : List Int) (persistence_hour : Int)
    (dd : DailyDataM) : Except PyErr (List (String × Val)) :=
  match popAirnow dd with
  | .error e => .error e
  | .ok others =>
      let observed := obsSeries dd hours
      let rmse := fun f =>
        Val.sqrtV sqrtFn (meanV (List.zipWith
          (fun o p => Val.mul (Val.sub o p) (Val.sub o p))
          observed (predSeries dd hours f)))
      let persistence := hourMean (dd.locData "airnow") persistence_hour
      .ok (others.map (fun f => (f, rmse f)) ++
        [("persistence", Val.sqrtV sqrtFn (meanV (observed.map
          (fun o => Val.mul (Val.sub o persistence) (Val.sub o persistence)))))])

/-- `MeanExcessExposure.__call__` (metrics.py:53-76): per source, the
observed average at the hour `np.argmin` picks from that source's predicted
series, minus the minimum observed average; "persistence" scores
`mean(observed) - min(observed)`. -/
def MeanExcessExposure.call (hours : List Int) (dd : DailyDataM) :
    Except PyErr (List (String × Val)) :=
  match popAirnow dd with
  | .error e => .error e
  | .ok others =>
      let observed := obsSeries dd hours
      let score := fun f =>
        Val.sub (observed.getD (argminV (predSeries dd hours f)) .nan)
          (minV observed)
      .ok (others.map (fun f => (f, score f)) ++
        [("persistence", Val.sub (meanV observed) (minV observed))])

/-- `IsSmokeDay.__call__` (metrics.py:88-118): per source,
`max(predicted) > threshold`; "persistence" compares the constant
hour-`persistence_hour` AirNow average, "observed" compares
`max(observed)`. -/
def IsSmokeDay.call (threshold : ℚ) (hours : List Int) (persistence_hour : Int)
    (dd : DailyDataM) : Except PyErr (List (String × Bool)) :=
  match popAirnow dd with
  | .error e => .error e
  | .ok others =>
      let observed := obsSeries dd hours
      let persistence := hourMean (dd.locData "airnow") persistence_hour
      .ok (others.map (fun f => (f, Val.gtB (maxV (predSeries dd hours f)) threshold)) ++
        [("persistence", Val.gtB persistence threshold),
         ("observed", Val.gtB (maxV observed) threshold)])

/-! ### Specification-side definitions

These follow the wording of the specification (section 4.4) on exact
rationals with every average defined: the per-hour average, the minimum /
maximum / mean over the window, and "the hour at which the predicted
concentration is lowest" as the first index attaining the minimum.  The
theorems below relate the embedded numpy computations to these. -/

/-- Spec-side per-hour average (all-defined case). -/
def specHourMean (rows : List (Int × ℚ)) (h : Int) : ℚ :=
  let sel := (rows.filter (fun x => x.1 == h)).map (fun x => x.2)
  sel.sum / sel.length

/-- Spec-side minimum of a non-empty window. -/
def specMin : List ℚ → ℚ
  | [] => 0
  | x :: xs => xs.foldl min x

/-- Spec-side maximum of a non-empty window. -/
def specMax : List ℚ → ℚ
  | [] => 0
  | x :: xs => xs.foldl max x

/-- Spec-side mean. -/
def specMean (xs : List ℚ) : ℚ := xs.sum / xs.length

/-- Spec-side "hour with the lowest value": first index attaining the
minimum. -/
def specFirstMinIdx (xs : List ℚ) : Nat := xs.findIdx (fun v => v == specMin xs)

/-- Spec-side observed window series. -/
def specObsSeries (dd : DailyDataM) (hours : List Int) : List ℚ :=
  hours.map (specHourMean (dd.locData "airnow"))

/-- Spec-side predicted window series of one source. -/
def specPredSeries (dd : DailyDataM) (hours : List Int) (f : String) : List ℚ :=
  hours.map (specHourMean (dd.locData f))

/-- Subtracting NaN yields NaN. -/
theorem Val.sub_nan (v : Val) : Val.sub v .nan = .nan := by cases v <;> rfl

/-- Folding `min` past an accumulator. -/
theorem foldl_min_min (xs : List ℚ) :
    ∀ a b : ℚ, xs.foldl min (min a b) = min a (xs.foldl min b) := by
  induction xs with
  | nil => intro a b; rfl
  | cons x t ih =>
      intro a b
      show t.foldl min (min (min a b) x) = min a (t.foldl min (min b x))
      rw [min_assoc, ih]

/-- Folding `max` past an accumulator. -/
theorem foldl_max_max (xs : List ℚ) :
    ∀ a b : ℚ, xs.foldl max (max a b) = max a (xs.foldl max b) := by
  induction xs with
  | nil => intro a b; rfl
  | cons x t ih =>
      intro a b
      show t.foldl max (max (max a b) x) = max a (t.foldl max (max b x))
      rw [max_assoc, ih]

/-- Head expansion of the spec-side minimum. -/
theorem specMin_cons (q : ℚ) (rest : List ℚ) (h : rest ≠ []) :
    specMin (q :: rest) = min q (specMin rest) := by
  cases rest with
  | nil => exact absurd rfl h
  | cons r t =>
      show t.foldl min (min q r) = min q (t.foldl min r)
      exact foldl_min_min t q r

/-- Head expansion of the spec-side maximum. -/
theorem specMax_cons (q : ℚ) (rest : List ℚ) (h : rest ≠ []) :
    specMax (q :: rest) = max q (specMax rest) := by
  cases rest with
  | nil => exact absurd rfl h
  | cons r t =>
      show t.foldl max (max q r) = max q (t.foldl max r)
      exact foldl_max_max t q r

/-- The spec-side minimum bounds every window value. -/
theorem specMin_le (xs : List ℚ) (v : ℚ) (hv : v ∈ xs) : specMin xs ≤ v := by
  induction xs with
  | nil => cases hv
  | cons x t ih =>
      cases t with
      | nil =>
          rcases List.mem_singleton.mp hv with rfl
          exact le_refl v
      | cons r s =>
          rw [specMin_cons x (r :: s) (by simp)]
          rcases List.mem_cons.mp hv with rfl | hv2
          · exact min_le_left _ _
          · exact le_trans (min_le_right _ _) (ih hv2)

/-- The spec-side minimum is attained. -/
theorem specMin_mem (xs : List ℚ) (h : xs ≠ []) : specMin xs ∈ xs := by
  induction xs with
  | nil => exact absurd rfl h
  | cons x t ih =>
      cases t with
      | nil => simp [specMin]
      | cons r s =>
          rw [specMin_cons x (r :: s) (by simp)]
          rcases le_total x (specMin (r :: s)) with hle | hle
          · rw [min_eq_left hle]; exact List.mem_cons_self _ _
          · rw [min_eq_right hle]
            exact List.mem_cons_of_mem _ (ih (by simp))

/-- The running minimum on NaN-free data folds `min` over the list. -/
theorem minVAux_map_num (xs : List ℚ) :
    ∀ cur : ℚ, minVAux (xs.map Val.num) cur = .num (xs.foldl min cur) := by
  induction xs with
  | nil => intro cur; rfl
  | cons x t ih =>
      intro cur
      show minVAux (Val.num x :: t.map Val.num) cur = .num ((x :: t).foldl min cur)
      simp only [minVAux, List.foldl_cons]
      rw [← min_def, ih]

/-- `np.min` on NaN-free data computes the spec-side minimum. -/
theorem minV_map_num (xs : List ℚ) (h : xs ≠ []) :
    minV (xs.map Val.num) = .num (specMin xs) := by
  cases xs with
  | nil => exact absurd rfl h
  | cons x t =>
      show minVAux (t.map Val.num) x = .num (specMin (x :: t))
      exact minVAux_map_num t x

/-- The asymmetric update of the running maximum agrees with `max`. -/
theorem update_eq_max (q cur : ℚ) : (if q ≤ cur then cur else q) = max cur q := by
  by_cases h : q ≤ cur
  · rw [if_pos h, max_eq_left h]
  · rw [if_neg h, max_eq_right (le_of_not_le h)]

/-- The running maximum on NaN-free data folds `max` over the list. -/
theorem maxVAux_map_num (xs : List ℚ) :
    ∀ cur : ℚ, maxVAux (xs.map Val.num) cur = .num (xs.foldl max cur) := by
  induction xs with
  | nil => intro cur; rfl
  | cons x t ih =>
      intro cur
      show maxVAux (Val.num x :: t.map Val.num) cur = .num ((x :: t).foldl max cur)
      simp only [maxVAux, List.foldl_cons]
      rw [update_eq_max, ih]

/-- `np.max` on NaN-free data computes the spec-side maximum. -/
theorem maxV_map_num (xs : List ℚ) (h : xs ≠ []) :
    maxV (xs.map Val.num) = .num (specMax xs) := by
  cases xs with
  | nil => exact absurd rfl h
  | cons x t =>
      show maxVAux (t.map Val.num) x = .num (specMax (x :: t))
      exact maxVAux_map_num t x

/-- `np.mean` on non-empty NaN-free data computes the spec-side mean. -/
theorem meanV_map_num (xs : List ℚ) (h : xs ≠ []) :
    meanV (xs.map Val.num) = .num (specMean xs) := by
  have h1 : (xs.map Val.num).any Val.isNan = false := by
    simp [List.any_map, Function.comp, Val.isNan]
  have h2 : (xs.map Val.num).isEmpty = false := by
    simp [List.isEmpty_iff, h]
  rw [meanV, h1, h2]
  simp [List.map_map, Function.comp_def, Val.unnum, specMean]

/-- An hour with at least one matching reading averages to a number, namely
the spec-side per-hour average. -/
theorem hourMean_num (rows : List (Int × ℚ)) (h : Int)
    (hne : rows.filter (fun x => x.1 == h) ≠ []) :
    hourMean rows h = .num (specHourMean rows h) := by
  rw [hourMean, specHourMean, if_neg]
  simp [List.isEmpty_iff, hne]

/-- C7-supporting fact: an hour with no matching reading averages to NaN. -/
theorem hourMean_nan (rows : List (Int × ℚ)) (h : Int)
    (he : rows.filter (fun x => x.1 == h) = []) :
    hourMean rows h = .nan := by
  rw [hourMean]
  simp [he]

/-- A window series over a frame with every hour populated is the spec-side
series, lifted to numbers. -/
theorem series_map_num (rows : List (Int × ℚ)) (hours : List Int)
    (hne : ∀ h ∈ hours, rows.filter (fun x => x.1 == h) ≠ []) :
    hours.map (hourMean rows) = (hours.map (specHourMean rows)).map Val.num := by
  rw [List.map_map]
  exact List.map_congr_left (fun h hh => hourMean_num rows h (hne h hh))

/-- `np.mean` of data containing a NaN is NaN. -/
theorem meanV_nan_of_mem (xs : List Val) (h : .nan ∈ xs) : meanV xs = .nan := by
  rw [meanV, if_pos]
  refine Bool.or_eq_true_iff.mpr (Or.inr ?_)
  exact List.any_eq_true.mpr ⟨.nan, h, rfl⟩

/-- The running minimum hits a NaN and sticks. -/
theorem minVAux_nan (xs : List Val) (h : .nan ∈ xs) :
    ∀ cur : ℚ, minVAux xs cur = .nan := by
  induction xs with
  | nil => cases h
  | cons x t ih =>
      intro cur
      cases x with
      | nan => rfl
      | num q =>
          have ht : Val.nan ∈ t := by
            rcases List.mem_cons.mp h with hx | hx
            · cases hx
            · exact hx
          exact ih ht _

/-- `np.min` of data containing a NaN is NaN. -/
theorem minV_nan_of_mem (xs : List Val) (h : .nan ∈ xs) : minV xs = .nan := by
  cases xs with
  | nil => cases h
  | cons x t =>
      cases x with
      | nan => rfl
      | num q =>
          have ht : Val.nan ∈ t := by
            rcases List.mem_cons.mp h with hx | hx
            · cases hx
            · exact hx
          exact minVAux_nan t ht q

/-- If the head is a lower bound of the tail, it is the spec-side minimum. -/
theorem specMin_cons_of_le (x : ℚ) (t : List ℚ) (hall : ∀ v ∈ t, x ≤ v) :
    specMin (x :: t) = x := by
  cases t with
  | nil => rfl
  | cons r s =>
      rw [specMin_cons x (r :: s) (by simp)]
      exact min_eq_left (hall _ (specMin_mem (r :: s) (by simp)))

/-- The `np.argmin` loop never moves off `best` while the accumulator is a
lower bound of the remaining data. -/
theorem argminAux_no_update (xs : List ℚ) :
    ∀ (cur : ℚ) (i best : Nat), (∀ v ∈ xs, cur ≤ v) →
    argminAux (xs.map Val.num) cur i best = best := by
  induction xs with
  | nil => intro _ _ _ _; rfl
  | cons x t ih =>
      intro cur i best hall
      have hx : cur ≤ x := hall x (List.mem_cons_self x t)
      show argminAux (Val.num x :: t.map Val.num) cur i best = best
      simp only [argminAux, if_pos hx]
      exact ih cur (i + 1) best (fun v hv => hall v (List.mem_cons_of_mem _ hv))

/-- When the remaining data undercuts the accumulator, the `np.argmin` loop
returns `i` plus the first index attaining the minimum of the remaining
data. -/
theorem argminAux_min (xs : List ℚ) :
    ∀ (cur : ℚ) (i best : Nat), xs ≠ [] → specMin xs < cur →
    argminAux (xs.map Val.num) cur i best = i + specFirstMinIdx xs := by
  induction xs with
  | nil => intro _ _ _ h _; exact absurd rfl h
  | cons x t ih =>
      intro cur i best _ hlt
      by_cases hx : cur ≤ x
      · have ht : t ≠ [] := by
          rintro rfl
          exact absurd hlt (not_lt.mpr hx)
        have hmin := specMin_cons x t ht
        have htmin : specMin t < cur := by
          rw [hmin] at hlt
          rcases min_lt_iff.mp hlt with h1 | h1
          · exact absurd h1 (not_lt.mpr hx)
          · exact h1
        have heq : specMin (x :: t) = specMin t := by
          rw [hmin]
          exact min_eq_right (le_of_lt (lt_of_lt_of_le htmin hx))
        show argminAux (Val.num x :: t.map Val.num) cur i best = i + specFirstMinIdx (x :: t)
        simp only [argminAux, if_pos hx]
        rw [ih cur (i + 1) best ht htmin]
        have hxne : (x == specMin t) = false :=
          beq_eq_false_iff_ne.mpr (ne_of_gt (lt_of_lt_of_le htmin hx))
        simp only [specFirstMinIdx, heq, List.findIdx_cons, hxne, cond_false]
        omega
      · have hxlt : x < cur := lt_of_not_le hx
        show argminAux (Val.num x :: t.map Val.num) cur i best = i + specFirstMinIdx (x :: t)
        simp only [argminAux, if_neg hx]
        by_cases hall : ∀ v ∈ t, x ≤ v
        · rw [argminAux_no_update t x (i + 1) i hall]
          have hminx : specMin (x :: t) = x := specMin_cons_of_le x t hall
          simp [specFirstMinIdx, hminx, List.findIdx_cons]
        · push_neg at hall
          obtain ⟨v, hv, hvx⟩ := hall
          have ht : t ≠ [] := by rintro rfl; cases hv
          have htmin : specMin t < x := lt_of_le_of_lt (specMin_le t v hv) hvx
          have heq : specMin (x :: t) = specMin t := by
            rw [specMin_cons x t ht]
            exact min_eq_right (le_of_lt htmin)
          rw [ih x (i + 1) i ht htmin]
          have hxne : (x == specMin t) = false :=
            beq_eq_false_iff_ne.mpr (ne_of_gt htmin)
          simp only [specFirstMinIdx, heq, List.findIdx_cons, hxne, cond_false]
          omega

/-- `np.argmin` on non-empty NaN-free data returns the first index attaining
the minimum. -/
theorem argminV_map_num (xs : List ℚ) (h : xs ≠ []) :
    argminV (xs.map Val.num) = specFirstMinIdx xs := by
  cases xs with
  | nil => exact absurd rfl h
  | cons x t =>
      show argminAux (t.map Val.num) x 1 0 = specFirstMinIdx (x :: t)
      by_cases hall : ∀ v ∈ t, x ≤ v
      · rw [argminAux_no_update t x 1 0 hall]
        have hminx : specMin (x :: t) = x := specMin_cons_of_le x t hall
        simp [specFirstMinIdx, hminx, List.findIdx_cons]
      · push_neg at hall
        obtain ⟨v, hv, hvx⟩ := hall
        have ht : t ≠ [] := by rintro rfl; cases hv
        have htmin : specMin t < x := lt_of_le_of_lt (specMin_le t v hv) hvx
        have heq : specMin (x :: t) = specMin t := by
          rw [specMin_cons x t ht]
          exact min_eq_right (le_of_lt htmin)
        rw [argminAux_min t x 1 0 ht htmin]
        have hxne : (x == specMin t) = false :=
          beq_eq_false_iff_ne.mpr (ne_of_gt htmin)
        simp only [specFirstMinIdx, heq, List.findIdx_cons, hxne, cond_false]
        omega

/-- The first-minimum index is in range for a non-empty window. -/
theorem specFirstMinIdx_lt_length (xs : List ℚ) (h : xs ≠ []) :
    specFirstMinIdx xs < xs.length := by
  apply List.findIdx_lt_length_of_exists
  exact ⟨specMin xs, specMin_mem xs h, by simp⟩

/-- Indexing a number-lifted window with an in-range index. -/
theorem getD_map_num (xs : List ℚ) (i : Nat) (hi : i < xs.length) :
    (xs.map Val.num).getD i .nan = .num (xs.getD i 0) := by
  rw [List.getD_eq_getElem?_getD, List.getD_eq_getElem?_getD, List.getElem?_map]
  rw [List.getElem?_eq_getElem hi]
  rfl

/-- Looking up a key of the scored-sources block returns its score. -/
theorem lookup_map_append_mem {β : Type} (g : String → β) (tail : List (String × β)) :
    ∀ (l : List String) (f : String), f ∈ l →
      List.lookup f (l.map (fun x => (x, g x)) ++ tail) = some (g f) := by
  intro l
  induction l with
  | nil => intro f hf; cases hf
  | cons x rest ih =>
      intro f hf
      by_cases hfx : f = x
      · subst hfx
        simp [List.lookup]
      · rcases List.mem_cons.mp hf with h | h
        · exact absurd h hfx
        · simp only [List.map_cons, List.cons_append, List.lookup,
            beq_eq_false_iff_ne.mpr hfx]
          exact ih f h

/-- Looking up a key absent from the scored-sources block falls through to
the trailing baseline entries. -/
theorem lookup_map_append_notmem {β : Type} (g : String → β) (tail : List (String × β)) :
    ∀ (l : List String) (k : String), k ∉ l →
      List.lookup k (l.map (fun x => (x, g x)) ++ tail) = List.lookup k tail := by
  intro l
  induction l with
  | nil => intro k _; rfl
  | cons x rest ih =>
      intro k hk
      have hkx : (k == x) = false :=
        beq_eq_false_iff_ne.mpr (fun h => hk (h ▸ List.mem_cons_self x rest))
      simp only [List.map_cons, List.cons_append, List.lookup, hkx]
      exact ih k (fun h => hk (List.mem_cons_of_mem _ h))

/-- Membership through dict-comprehension key deduplication. -/
theorem dedupFirstGo_mem (l : List String) :
    ∀ (seen : List String) (s : String),
      s ∈ dedupFirstGo l seen ↔ s ∈ l ∧ s ∉ seen := by
  induction l with
  | nil => intro seen s; simp [dedupFirstGo]
  | cons x rest ih =>
      intro seen s
      by_cases hx : x ∈ seen
      · rw [show dedupFirstGo (x :: rest) seen = dedupFirstGo rest seen by
          simp [dedupFirstGo, hx], ih seen s]
        constructor
        · rintro ⟨h1, h2⟩
          exact ⟨List.mem_cons_of_mem _ h1, h2⟩
        · rintro ⟨h1, h2⟩
          rcases List.mem_cons.mp h1 with h1 | h1
          · exact absurd (h1 ▸ hx) h2
          · exact ⟨h1, h2⟩
      · rw [show dedupFirstGo (x :: rest) seen = x :: dedupFirstGo rest (x :: seen) by
          simp [dedupFirstGo, hx]]
        constructor
        · intro hmem
          rcases List.mem_cons.mp hmem with rfl | hmem
          · exact ⟨List.mem_cons_self _ _, hx⟩
          · obtain ⟨h1, h2⟩ := (ih (x :: seen) s).mp hmem
            exact ⟨List.mem_cons_of_mem _ h1,
              fun hs => h2 (List.mem_cons_of_mem _ hs)⟩
        · rintro ⟨h1, h2⟩
          rcases List.mem_cons.mp h1 with rfl | h1
          · exact List.mem_cons_self _ _
          · by_cases hsx : s = x
            · exact hsx ▸ List.mem_cons_self _ _
            · refine List.mem_cons_of_mem _ ((ih (x :: seen) s).mpr ⟨h1, ?_⟩)
              intro hs
              rcases List.mem_cons.mp hs with hs | hs
              · exact hsx hs
              · exact h2 hs

/-- Dict-comprehension keys are exactly the configured names. -/
theorem dedupFirst_mem (l : List String) (s : String) :
    s ∈ dedupFirst l ↔ s ∈ l := by
  rw [dedupFirst, dedupFirstGo_mem]
  simp

/-- With every configured name known and the observation source configured,
popping "airnow" succeeds and leaves the other unique names. -/
theorem popAirnow_ok (dd : DailyDataM)
    (hall : ∀ f ∈ dd.forecastList, f ∈ knownForecasts)
    (hair : "airnow" ∈ dd.forecastList) :
    popAirnow dd =
      .ok ((dedupFirst dd.forecastList).filter (fun s => s ≠ "airnow")) := by
  rw [popAirnow, DailyData.forecastsKeys, if_pos hall]
  exact if_pos ((dedupFirst_mem _ _).mpr hair)

/-- A forecast source is among the scored names iff it is configured and is
not the observation source. -/
theorem mem_others (dd : DailyDataM) (f : String) :
    f ∈ (dedupFirst dd.forecastList).filter (fun s => s ≠ "airnow") ↔
      f ∈ dd.forecastList ∧ f ≠ "airnow" := by
  rw [List.mem_filter, dedupFirst_mem]
  simp

/-- Scored names never include the baseline key "persistence". -/
theorem persistence_not_others (dd : DailyDataM)
    (hall : ∀ f ∈ dd.forecastList, f ∈ knownForecasts) :
    "persistence" ∉ (dedupFirst dd.forecastList).filter (fun s => s ≠ "airnow") := by
  intro hmem
  have h1 := ((mem_others dd "persistence").mp hmem).1
  have h2 := hall _ h1
  simp [knownForecasts] at h2

/-- Scored names never include the ground-truth key "observed". -/
theorem observed_not_others (dd : DailyDataM)
    (hall : ∀ f ∈ dd.forecastList, f ∈ knownForecasts) :
    "observed" ∉ (dedupFirst dd.forecastList).filter (fun s => s ≠ "airnow") := by
  intro hmem
  have h1 := ((mem_others dd "observed").mp hmem).1
  have h2 := hall _ h1
  simp [knownForecasts] at h2

/-- A fully populated observed window is the spec-side series, lifted. -/
theorem obsSeries_eq (dd : DailyDataM) (hours : List Int)
    (hobs : ∀ h ∈ hours, (dd.locData "airnow").filter (fun x => x.1 == h) ≠ []) :
    obsSeries dd hours = (specObsSeries dd hours).map Val.num :=
  series_map_num _ hours hobs

/-- A fully populated predicted window is the spec-side series, lifted. -/
theorem predSeries_eq (dd : DailyDataM) (hours : List Int) (f : String)
    (hp : ∀ h ∈ hours, (dd.locData f).filter (fun x => x.1 == h) ≠ []) :
    predSeries dd hours f = (specPredSeries dd hours f).map Val.num :=
  series_map_num _ hours hp

/-- A spec-side series over a non-empty window is non-empty. -/
theorem specSeries_ne_nil (rows : List (Int × ℚ)) (hours : List Int)
    (hne : hours ≠ []) : hours.map (specHourMean rows) ≠ [] := by
  intro hcon
  have hlen : hours.length = 0 := by simpa using congrArg List.length hcon
  exact hne (List.length_eq_zero.mp hlen)

/-- Mean-Excess-Exposure score of one forecast source, all-defined case:
the observed average at the first hour minimising that source's prediction,
minus the minimum observed average. -/
theorem mee_lookup_source (dd : DailyDataM) (hours : List Int) (f : String)
    (hne : hours ≠ [])
    (hall : ∀ g ∈ dd.forecastList, g ∈ knownForecasts)
    (hair : "airnow" ∈ dd.forecastList)
    (hobs : ∀ h ∈ hours, (dd.locData "airnow").filter (fun x => x.1 == h) ≠ [])
    (hf : f ∈ dd.forecastList) (hfa : f ≠ "airnow")
    (hpredf : ∀ h ∈ hours, (dd.locData f).filter (fun x => x.1 == h) ≠ []) :
    (MeanExcessExposure.call hours dd).toOption.bind (List.lookup f) =
      some (.num ((specObsSeries dd hours).getD
        (specFirstMinIdx (specPredSeries dd hours f)) 0
          - specMin (specObsSeries dd hours))) := by
  have hsone : specObsSeries dd hours ≠ [] := specSeries_ne_nil _ hours hne
  have hspne : specPredSeries dd hours f ≠ [] := specSeries_ne_nil _ hours hne
  have hlt : specFirstMinIdx (specPredSeries dd hours f) <
      (specObsSeries dd hours).length := by
    have h1 := specFirstMinIdx_lt_length _ hspne
    have h2 : (specPredSeries dd hours f).length = (specObsSeries dd hours).length := by
      simp [specPredSeries, specObsSeries]
    omega
  simp only [MeanExcessExposure.call, popAirnow_ok dd hall hair, Except.toOption,
    Option.some_bind]
  rw [lookup_map_append_mem _ _ _ f ((mem_others dd f).mpr ⟨hf, hfa⟩)]
  rw [obsSeries_eq dd hours hobs, predSeries_eq dd hours f hpredf,
    argminV_map_num _ hspne, minV_map_num _ hsone, getD_map_num _ _ hlt]
  rfl

/-- Mean-Excess-Exposure persistence baseline, all-defined case: mean
observed minus minimum observed. -/
theorem mee_lookup_persistence (dd : DailyDataM) (hours : List Int)
    (hne : hours ≠ [])
    (hall : ∀ g ∈ dd.forecastList, g ∈ knownForecasts)
    (hair : "airnow" ∈ dd.forecastList)
    (hobs : ∀ h ∈ hours, (dd.locData "airnow").filter (fun x => x.1 == h) ≠ []) :
    (MeanExcessExposure.call hours dd).toOption.bind (List.lookup "persistence") =
      some (.num (specMean (specObsSeries dd hours)
        - specMin (specObsSeries dd hours))) := by
  have hsone : specObsSeries dd hours ≠ [] := specSeries_ne_nil _ hours hne
  simp only [MeanExcessExposure.call, popAirnow_ok dd hall hair, Except.toOption,
    Option.some_bind]
  rw [lookup_map_append_notmem _ _ _ _ (persistence_not_others dd hall)]
  simp only [List.lookup, beq_self_eq_true]
  rw [obsSeries_eq dd hours hobs, meanV_map_num _ hsone, minV_map_num _ hsone]
  rfl

/-- A window hour missing from a forecast source's frame plants a NaN in the
RMSE squared-error array. -/
theorem rmse_zip_nan (dd : DailyDataM) (hours : List Int) (f : String) (h : Int)
    (hh : h ∈ hours) (he : (dd.locData f).filter (fun x => x.1 == h) = []) :
    Val.nan ∈ List.zipWith (fun o p => Val.mul (Val.sub o p) (Val.sub o p))
      (obsSeries dd hours) (predSeries dd hours f) := by
  simp only [obsSeries, predSeries]
  induction hours with
  | nil => cases hh
  | cons a t ih =>
      rcases List.mem_cons.mp hh with rfl | hmem
      · simp only [List.map_cons, List.zipWith_cons_cons]
        rw [hourMean_nan _ _ he, Val.sub_nan]
        exact List.mem_cons_self _ _
      · simp only [List.map_cons, List.zipWith_cons_cons]
        exact List.mem_cons_of_mem _ (ih hmem)

/-- A window hour missing from the AirNow frame plants a NaN in the observed
series. -/
theorem obs_nan_mem (dd : DailyDataM) (hours : List Int) (h : Int)
    (hh : h ∈ hours) (he : (dd.locData "airnow").filter (fun x => x.1 == h) = []) :
    Val.nan ∈ obsSeries dd hours := by
  have h1 := hourMean_nan (dd.locData "airnow") h he
  have h2 : hourMean (dd.locData "airnow") h ∈ obsSeries dd hours :=
    List.mem_map_of_mem _ hh
  rwa [h1] at h2

/-- RMSE score of a source with a missing window hour is NaN. -/
theorem rmse_lookup_nan (dd : DailyDataM) (sqrtFn : ℚ → ℚ) (hours : List Int)
    (persistence_hour : Int) (f : String) (h : Int)
    (hall : ∀ g ∈ dd.forecastList, g ∈ knownForecasts)
    (hair : "airnow" ∈ dd.forecastList)
    (hf : f ∈ dd.forecastList) (hfa : f ≠ "airnow") (hh : h ∈ hours)
    (he : (dd.locData f).filter (fun x => x.1 == h) = []) :
    (RMSE.call sqrtFn hours persistence_hour dd).toOption.bind (List.lookup f) =
      some .nan := by
  simp only [RMSE.call, popAirnow_ok dd hall hair, Except.toOption, Option.some_bind]
  rw [lookup_map_append_mem _ _ _ f ((mem_others dd f).mpr ⟨hf, hfa⟩)]
  rw [meanV_nan_of_mem _ (rmse_zip_nan dd hours f h hh he)]
  rfl

/-- Mean-Excess-Exposure score of every source is NaN when the observed
series has a missing hour. -/
theorem mee_lookup_nan_source (dd : DailyDataM) (hours : List Int) (f : String)
    (h : Int)
    (hall : ∀ g ∈ dd.forecastList, g ∈ knownForecasts)
    (hair : "airnow" ∈ dd.forecastList)
    (hf : f ∈ dd.forecastList) (hfa : f ≠ "airnow") (hh : h ∈ hours)
    (he : (dd.locData "airnow").filter (fun x => x.1 == h) = []) :
    (MeanExcessExposure.call hours dd).toOption.bind (List.lookup f) = some .nan := by
  simp only [MeanExcessExposure.call, popAirnow_ok dd hall hair, Except.toOption,
    Option.some_bind]
  rw [lookup_map_append_mem _ _ _ f ((mem_others dd f).mpr ⟨hf, hfa⟩)]
  rw [minV_nan_of_mem _ (obs_nan_mem dd hours h hh he), Val.sub_nan]

/-- Mean-Excess-Exposure persistence baseline is NaN when the observed
series has a missing hour. -/
theorem mee_lookup_nan_persistence (dd : DailyDataM) (hours : List Int) (h : Int)
    (hall : ∀ g ∈ dd.forecastList, g ∈ knownForecasts)
    (hair : "airnow" ∈ dd.forecastList)
    (hh : h ∈ hours)
    (he : (dd.locData "airnow").filter (fun x => x.1 == h) = []) :
    (MeanExcessExposure.call hours dd).toOption.bind (List.lookup "persistence") =
      some .nan := by
  simp only [MeanExcessExposure.call, popAirnow_ok dd hall hair, Except.toOption,
    Option.some_bind]
  rw [lookup_map_append_notmem _ _ _ _ (persistence_not_others dd hall)]
  simp only [List.lookup, beq_self_eq_true]
  rw [minV_nan_of_mem _ (obs_nan_mem dd hours h hh he), Val.sub_nan]

/-- Is-Smoke-Day boolean of one forecast source, all-defined case: maximum
predicted average strictly above the threshold. -/
theorem smoke_lookup_source (dd : DailyDataM) (hours : List Int)
    (threshold : ℚ) (persistence_hour : Int) (f : String)
    (hne : hours ≠ [])
    (hall : ∀ g ∈ dd.forecastList, g ∈ knownForecasts)
    (hair : "airnow" ∈ dd.forecastList)
    (hf : f ∈ dd.forecastList) (hfa : f ≠ "airnow")
    (hpredf : ∀ h ∈ hours, (dd.locData f).filter (fun x => x.1 == h) ≠ []) :
    (IsSmokeDay.call threshold hours persistence_hour dd).toOption.bind
        (List.lookup f) =
      some (decide (threshold < specMax (specPredSeries dd hours f))) := by
  simp only [IsSmokeDay.call, popAirnow_ok dd hall hair, Except.toOption,
    Option.some_bind]
  rw [lookup_map_append_mem _ _ _ f ((mem_others dd f).mpr ⟨hf, hfa⟩)]
  have hspne : specPredSeries dd hours f ≠ [] :=
    specSeries_ne_nil (dd.locData f) hours hne
  rw [predSeries_eq dd hours f hpredf, maxV_map_num (specPredSeries dd hours f) hspne]
  rfl

/-- Is-Smoke-Day persistence entry, defined case: constant persistence-hour
average against the threshold. -/
theorem smoke_lookup_persistence (dd : DailyDataM) (hours : List Int)
    (threshold : ℚ) (persistence_hour : Int)
    (hall : ∀ g ∈ dd.forecastList, g ∈ knownForecasts)
    (hair : "airnow" ∈ dd.forecastList)
    (hpers : (dd.locData "airnow").filter (fun x => x.1 == persistence_hour) ≠ []) :
    (IsSmokeDay.call threshold hours persistence_hour dd).toOption.bind
        (List.lookup "persistence") =
      some (decide (threshold <
        specHourMean (dd.locData "airnow") persistence_hour)) := by
  simp only [IsSmokeDay.call, popAirnow_ok dd hall hair, Except.toOption,
    Option.some_bind]
  rw [lookup_map_append_notmem _ _ _ _ (persistence_not_others dd hall)]
  simp only [List.lookup, beq_self_eq_true]
  rw [hourMean_num _ _ hpers]
  rfl

/-- Is-Smoke-Day ground-truth entry, all-defined case: maximum observed
average against the threshold. -/
theorem smoke_lookup_observed (dd : DailyDataM) (hours : List Int)
    (threshold : ℚ) (persistence_hour : Int)
    (hne : hours ≠ [])
    (hall : ∀ g ∈ dd.forecastList, g ∈ knownForecasts)
    (hair : "airnow" ∈ dd.forecastList)
    (hobs : ∀ h ∈ hours, (dd.locData "airnow").filter (fun x => x.1 == h) ≠ []) :
    (IsSmokeDay.call threshold hours persistence_hour dd).toOption.bind
        (List.lookup "observed") =
      some (decide (threshold < specMax (specObsSeries dd hours))) := by
  simp only [IsSmokeDay.call, popAirnow_ok dd hall hair, Except.toOption,
    Option.some_bind]
  rw [lookup_map_append_notmem _ _ _ _ (observed_not_others dd hall)]
  have hb : (("observed" : String) == "persistence") = false := by decide
  simp only [List.lookup, hb, beq_self_eq_true]
  have hsone : specObsSeries dd hours ≠ [] :=
    specSeries_ne_nil (dd.locData "airnow") hours hne
  rw [obsSeries_eq dd hours hobs, maxV_map_num (specObsSeries dd hours) hsone]
  rfl

/-- The specification's worked Mean-Excess-Exposure example: observed window
[50, 10, 30], one forecast source ("hrrr") predicting [5, 40, 20], one
reading per hour. -/
def meeExampleDay : DailyDataM :=
  ⟨["airnow", "hrrr"], fun f =>
    if f = "airnow" then [(13, 50), (14, 10), (15, 30)]
    else [(13, 5), (14, 40), (15, 20)]⟩

/-- C5: with every per-hour observed and predicted average over the window
defined, Mean Excess Exposure scores each forecast source as the observed
average at the first hour minimising that source's predicted series, minus
the minimum observed average, and scores persistence as mean observed minus
minimum observed; on the worked example (observed [50, 10, 30], predictions
[5, 40, 20]) the source scores 40 and persistence scores 20. -/
theorem mean_excess_exposure_spec (dd : DailyDataM) (hours : List Int)
    (hne : hours ≠ [])
    (hall : ∀ g ∈ dd.forecastList, g ∈ knownForecasts)
    (hair : "airnow" ∈ dd.forecastList)
    (hobs : ∀ h ∈ hours, (dd.locData "airnow").filter (fun x => x.1 == h) ≠ [])
    (hpred : ∀ f ∈ dd.forecastList, ∀ h ∈ hours,
      (dd.locData f).filter (fun x => x.1 == h) ≠ []) :
    (∀ f ∈ dd.forecastList, f ≠ "airnow" →
      (MeanExcessExposure.call hours dd).toOption.bind (List.lookup f) =
        some (.num ((specObsSeries dd hours).getD
          (specFirstMinIdx (specPredSeries dd hours f)) 0
            - specMin (specObsSeries dd hours)))) ∧
    ((MeanExcessExposure.call hours dd).toOption.bind (List.lookup "persistence") =
      some (.num (specMean (specObsSeries dd hours)
        - specMin (specObsSeries dd hours)))) ∧
    ((MeanExcessExposure.call [13, 14, 15] meeExampleDay).toOption.bind
      (List.lookup "hrrr") = some (.num 40)) ∧
    ((MeanExcessExposure.call [13, 14, 15] meeExampleDay).toOption.bind
      (List.lookup "persistence") = some (.num 20)) := by
  refine ⟨?_, ?_, ?_, ?_⟩
  · intro f hf hfa
    exact mee_lookup_source dd hours f hne hall hair hobs hf hfa (hpred f hf)
  · exact mee_lookup_persistence dd hours hne hall hair hobs
  · have hcall := mee_lookup_source meeExampleDay [13, 14, 15] "hrrr" (by decide)
      (by decide) (by decide) (by decide) (by decide) (by decide) (by decide)
    rw [hcall]
    have hA : meeExampleDay.locData "airnow" = [(13, 50), (14, 10), (15, 30)] := by
      simp [meeExampleDay]
    have hH : meeExampleDay.locData "hrrr" = [(13, 5), (14, 40), (15, 20)] := by
      simp [meeExampleDay]
    have hso : specObsSeries meeExampleDay [13, 14, 15] = [50, 10, 30] := by
      simp only [specObsSeries]
      rw [hA]
      norm_num [specHourMean]
    have hsp : specPredSeries meeExampleDay [13, 14, 15] "hrrr" = [5, 40, 20] := by
      simp only [specPredSeries]
      rw [hH]
      norm_num [specHourMean]
    rw [hso, hsp]
    norm_num [specFirstMinIdx, specMin, min_def, List.findIdx_cons]
  · have hcall := mee_lookup_persistence meeExampleDay [13, 14, 15] (by decide)
      (by decide) (by decide) (by decide)
    rw [hcall]
    have hA : meeExampleDay.locData "airnow" = [(13, 50), (14, 10), (15, 30)] := by
      simp [meeExampleDay]
    have hso : specObsSeries meeExampleDay [13, 14, 15] = [50, 10, 30] := by
      simp only [specObsSeries]
      rw [hA]
      norm_num [specHourMean]
    rw [hso]
    norm_num [specMean, specMin, min_def]

/-- Concrete instance of `mean_excess_exposure_spec` on the worked example:
the general formula applied to "hrrr". -/
theorem mean_excess_exposure_spec_witness :
    (MeanExcessExposure.call [13, 14, 15] meeExampleDay).toOption.bind
        (List.lookup "hrrr") =
      some (.num ((specObsSeries meeExampleDay [13, 14, 15]).getD
        (specFirstMinIdx (specPredSeries meeExampleDay [13, 14, 15] "hrrr")) 0
          - specMin (specObsSeries meeExampleDay [13, 14, 15]))) :=
  (mean_excess_exposure_spec meeExampleDay [13, 14, 15] (by decide) (by decide)
    (by decide) (by decide) (by decide)).1 "hrrr" (by decide) (by decide)

/-- The specification's worked Is-Smoke-Day example: observed window
[10, 20, 40, 15] over hours 13-16, persistence hour 11 reading 12, and a
source ("hrrr") whose predicted window maximum is 30. -/
def smokeExampleDay : DailyDataM :=
  ⟨["airnow", "hrrr"], fun f =>
    if f = "airnow" then [(11, 12), (13, 10), (14, 20), (15, 40), (16, 15)]
    else [(13, 30), (14, 25), (15, 20), (16, 10)]⟩

/-- C6: Is-Smoke-Day returns, per forecast source, whether the maximum
predicted window average strictly exceeds the threshold, plus a
"persistence" entry comparing the constant persistence-hour observed
average and an "observed" entry comparing the maximum observed window
average; on the worked example (observed [10, 20, 40, 15], threshold 35)
"observed" is true and a source with predicted maximum 30 is false. -/
theorem is_smoke_day_spec (dd : DailyDataM) (hours : List Int)
    (threshold : ℚ) (persistence_hour : Int)
    (hne : hours ≠ [])
    (hall : ∀ g ∈ dd.forecastList, g ∈ knownForecasts)
    (hair : "airnow" ∈ dd.forecastList)
    (hobs : ∀ h ∈ hours, (dd.locData "airnow").filter (fun x => x.1 == h) ≠ [])
    (hpers : (dd.locData "airnow").filter
      (fun x => x.1 == persistence_hour) ≠ [])
    (hpred : ∀ f ∈ dd.forecastList, ∀ h ∈ hours,
      (dd.locData f).filter (fun x => x.1 == h) ≠ []) :
    (∀ f ∈ dd.forecastList, f ≠ "airnow" →
      (IsSmokeDay.call threshold hours persistence_hour dd).toOption.bind
        (List.lookup f) =
          some (decide (threshold < specMax (specPredSeries dd hours f)))) ∧
    ((IsSmokeDay.call threshold hours persistence_hour dd).toOption.bind
      (List.lookup "persistence") =
        some (decide (threshold <
          specHourMean (dd.locData "airnow") persistence_hour))) ∧
    ((IsSmokeDay.call threshold hours persistence_hour dd).toOption.bind
      (List.lookup "observed") =
        some (decide (threshold < specMax (specObsSeries dd hours)))) ∧
    ((IsSmokeDay.call 35 [13, 14, 15, 16] 11 smokeExampleDay).toOption.bind
      (List.lookup "observed") = some true) ∧
    ((IsSmokeDay.call 35 [13, 14, 15, 16] 11 smokeExampleDay).toOption.bind
      (List.lookup "hrrr") = some false) := by
  refine ⟨?_, ?_, ?_, ?_, ?_⟩
  · intro f hf hfa
    exact smoke_lookup_source dd hours threshold persistence_hour f hne hall hair
      hf hfa (hpred f hf)
  · exact smoke_lookup_persistence dd hours threshold persistence_hour hall hair hpers
  · exact smoke_lookup_observed dd hours threshold persistence_hour hne hall hair hobs
  · have hcall := smoke_lookup_observed smokeExampleDay [13, 14, 15, 16] 35 11
      (by decide) (by decide) (by decide) (by decide)
    rw [hcall]
    have hA : smokeExampleDay.locData "airnow" =
        [(11, 12), (13, 10), (14, 20), (15, 40), (16, 15)] := by
      simp [smokeExampleDay]
    have hso : specObsSeries smokeExampleDay [13, 14, 15, 16] = [10, 20, 40, 15] := by
      simp only [specObsSeries]
      rw [hA]
      norm_num [specHourMean]
    rw [hso]
    norm_num [specMax, max_def]
  · have hcall := smoke_lookup_source smokeExampleDay [13, 14, 15, 16] 35 11 "hrrr"
      (by decide) (by decide) (by decide) (by decide) (by decide) (by decide)
    rw [hcall]
    have hH : smokeExampleDay.locData "hrrr" =
        [(13, 30), (14, 25), (15, 20), (16, 10)] := by
      simp [smokeExampleDay]
    have hsp : specPredSeries smokeExampleDay [13, 14, 15, 16] "hrrr" =
        [30, 25, 20, 10] := by
      simp only [specPredSeries]
      rw [hH]
      norm_num [specHourMean]
    rw [hsp]
    norm_num [specMax, max_def]

/-- Concrete instance of `is_smoke_day_spec` on the worked example: the
general formula applied to "hrrr". -/
theorem is_smoke_day_spec_witness :
    (IsSmokeDay.call 35 [13, 14, 15, 16] 11 smokeExampleDay).toOption.bind
        (List.lookup "hrrr") =
      some (decide ((35 : ℚ) <
        specMax (specPredSeries smokeExampleDay [13, 14, 15, 16] "hrrr"))) :=
  (is_smoke_day_spec smokeExampleDay [13, 14, 15, 16] 35 11 (by decide) (by decide)
    (by decide) (by decide) (by decide) (by decide)).1 "hrrr" (by decide) (by decide)

/-- C7 (amended): an hour with no matching readings averages to NaN; the
RMSE score of a source with a missing window hour is NaN; and a missing
hour in the observation series makes every Mean-Excess-Exposure score
(including persistence) NaN.  (A missing hour in a forecast source's own
predicted series does not make its Mean-Excess-Exposure score NaN — see
the counterexample.) -/
theorem missing_hour_propagation (dd : DailyDataM) (sqrtFn : ℚ → ℚ)
    (hours : List Int) (persistence_hour : Int)
    (hall : ∀ g ∈ dd.forecastList, g ∈ knownForecasts)
    (hair : "airnow" ∈ dd.forecastList) :
    (∀ (rows : List (Int × ℚ)) (h : Int), rows.filter (fun x => x.1 == h) = [] →
      hourMean rows h = .nan) ∧
    (∀ f ∈ dd.forecastList, f ≠ "airnow" → ∀ h ∈ hours,
      (dd.locData f).filter (fun x => x.1 == h) = [] →
      (RMSE.call sqrtFn hours persistence_hour dd).toOption.bind (List.lookup f) =
        some .nan) ∧
    (∀ h ∈ hours, (dd.locData "airnow").filter (fun x => x.1 == h) = [] →
      (∀ f ∈ dd.forecastList, f ≠ "airnow" →
        (MeanExcessExposure.call hours dd).toOption.bind (List.lookup f) =
          some .nan) ∧
      (MeanExcessExposure.call hours dd).toOption.bind (List.lookup "persistence") =
        some .nan) := by
  refine ⟨hourMean_nan, ?_, ?_⟩
  · intro f hf hfa h hh he
    exact rmse_lookup_nan dd sqrtFn hours persistence_hour f h hall hair hf hfa hh he
  · intro h hh he
    exact ⟨fun f hf hfa => mee_lookup_nan_source dd hours f h hall hair hf hfa hh he,
      mee_lookup_nan_persistence dd hours h hall hair hh he⟩

/-- A day where the source "hrrr" has no reading at window hour 14 but the
observation series is fully populated. -/
def meeNanPredDay : DailyDataM :=
  ⟨["airnow", "hrrr"], fun f =>
    if f = "airnow" then [(13, 50), (14, 10), (15, 30)] else [(13, 5), (15, 20)]⟩

/-- C7 as frozen is false for Mean Excess Exposure: a source with a missing
predicted hour (NaN at hour 14) still receives the numeric score 0, because
`np.argmin` returns the NaN's index and the observed value there is
defined. -/
theorem mee_missing_pred_hour_defined :
    (meeNanPredDay.locData "hrrr").filter (fun x => x.1 == (14 : Int)) = [] ∧
    (MeanExcessExposure.call [13, 14, 15] meeNanPredDay).toOption.bind
      (List.lookup "hrrr") = some (.num 0) ∧
    Val.num 0 ≠ Val.nan := by
  refine ⟨by decide, ?_, by decide⟩
  have hpop : popAirnow meeNanPredDay = .ok ["hrrr"] := rfl
  have hobs : obsSeries meeNanPredDay [13, 14, 15] = [.num 50, .num 10, .num 30] := by
    simp only [obsSeries]
    rw [show meeNanPredDay.locData "airnow" = [(13, 50), (14, 10), (15, 30)] from by
      simp [meeNanPredDay]]
    norm_num [hourMean]
  have hpred : predSeries meeNanPredDay [13, 14, 15] "hrrr" =
      [.num 5, .nan, .num 20] := by
    simp only [predSeries]
    rw [show meeNanPredDay.locData "hrrr" = [(13, 5), (15, 20)] from by
      simp [meeNanPredDay]]
    norm_num [hourMean]
  simp only [MeanExcessExposure.call, hpop, Except.toOption, Option.some_bind]
  rw [lookup_map_append_mem _ _ _ "hrrr" (by decide)]
  rw [hobs, hpred]
  norm_num [argminV, argminAux, minV, minVAux, Val.sub, List.getD]

/-- A day where the observation source has no reading at window hour 14 but
the source "hrrr" is fully populated. -/
def meeNanObsDay : DailyDataM :=
  ⟨["airnow", "hrrr"], fun f =>
    if f = "airnow" then [(13, 50), (15, 30)] else [(13, 5), (14, 40), (15, 20)]⟩

/-- Concrete instance of `missing_hour_propagation`: the empty frame
averages to NaN, and a missing observed hour makes both the "hrrr" and the
persistence Mean-Excess-Exposure scores NaN. -/
theorem missing_hour_propagation_witness :
    hourMean [] 13 = .nan ∧
    (MeanExcessExposure.call [13, 14, 15] meeNanObsDay).toOption.bind
      (List.lookup "hrrr") = some .nan ∧
    (MeanExcessExposure.call [13, 14, 15] meeNanObsDay).toOption.bind
      (List.lookup "persistence") = some .nan := by
  have hthm := missing_hour_propagation meeNanObsDay id [13, 14, 15] 11
    (by decide) (by decide)
  have h3 := hthm.2.2 14 (by decide) (by decide)
  exact ⟨hthm.1 [] 13 rfl, h3.1 "hrrr" (by decide) (by decide), h3.2⟩

/-- C10 (amended): for a Daily Data aggregator whose configured list
contains only known source names but omits "airnow", each of the three
metrics raises `KeyError` from `forecasts.pop("airnow")`.  (A configured
list with an unknown name raises `ValueError` from `build_forecast` before
the pop — see the counterexample.) -/
theorem metrics_require_airnow (dd : DailyDataM) (sqrtFn : ℚ → ℚ)
    (hours : List Int) (threshold : ℚ) (persistence_hour : Int)
    (hall : ∀ f ∈ dd.forecastList, f ∈ knownForecasts)
    (hnair : "airnow" ∉ dd.forecastList) :
    RMSE.call sqrtFn hours persistence_hour dd = .error .keyError ∧
    MeanExcessExposure.call hours dd = .error .keyError ∧
    IsSmokeDay.call threshold hours persistence_hour dd = .error .keyError := by
  have hpop : popAirnow dd = .error .keyError := by
    rw [popAirnow, DailyData.forecastsKeys, if_pos hall]
    exact if_neg (fun h => hnair ((dedupFirst_mem _ _).mp h))
  exact ⟨by simp [RMSE.call, hpop], by simp [MeanExcessExposure.call, hpop],
    by simp [IsSmokeDay.call, hpop]⟩

/-- Concrete instance of `metrics_require_airnow`: a configuration with only
"hrrr" makes all three metrics raise `KeyError`. -/
theorem metrics_require_airnow_witness :
    RMSE.call id hoursToInclude 11 ⟨["hrrr"], fun _ => []⟩ = .error .keyError ∧
    MeanExcessExposure.call hoursToInclude ⟨["hrrr"], fun _ => []⟩ =
      .error .keyError ∧
    IsSmokeDay.call 35 hoursToInclude 11 ⟨["hrrr"], fun _ => []⟩ =
      .error .keyError :=
  metrics_require_airnow ⟨["hrrr"], fun _ => []⟩ id hoursToInclude 35 11
    (by decide) (by decide)

/-- C10 as frozen is false when the configured list holds an unknown name:
with `_forecasts = ["bogus"]` (which omits "airnow") every metric raises
`ValueError` from `build_forecast`, not `KeyError`. -/
theorem metrics_unknown_source_valueerror :
    RMSE.call id hoursToInclude 11 ⟨["bogus"], fun _ => []⟩ = .error .valueError ∧
    MeanExcessExposure.call hoursToInclude ⟨["bogus"], fun _ => []⟩ =
      .error .valueError ∧
    IsSmokeDay.call 35 hoursToInclude 11 ⟨["bogus"], fun _ => []⟩ =
      .error .valueError ∧
    PyErr.valueError ≠ PyErr.keyError :=
  ⟨rfl, rfl, rfl, by decide⟩

/-! ## Experiment result persistence (experiment.py, `Experiment.save_results`)

`save_results` (experiment.py:60-70) iterates over the result mapping one
date at a time and calls `json_tricks.dump(day_results, filepath)` inside a
`try`/`except ValueError` that logs and moves on.  `json_tricks.dump` first
renders the whole object to text (`dumps`) and only then opens the file and
writes the rendered text in full, so a serialization `ValueError` leaves the
filesystem untouched and a success is a single complete file replacement.
The filesystem is a list of `(path, content)` pairs; serialization is the
parameter `serialize`, failing with `Unit` standing for `ValueError`. -/

/-- `json_tricks.dump(day_results, filepath)` (experiment.py:68). -/
def json_tricks_dump {ρ σ : Type} (serialize : ρ → Except Unit σ)
    (fs : List (String × σ)) (path : String) (x : ρ) :
    Except Unit (List (String × σ)) :=
  match serialize x with
  | .ok txt => .ok (fs.filter (fun f => f.1 ≠ path) ++ [(path, txt)])
  | .error e => .error e

/-- `str(Path(Path(results_directory, location), f"{date}.json"))`
(experiment.py:63-66). -/
def resultPath (results_directory location date : String) : String :=
  results_directory ++ "/" ++ location ++ "/" ++ date ++ ".json"

/-- `Experiment.save_results` (experiment.py:60-70): one dump per date; a
`ValueError` is caught, printed and skipped, and the loop continues with
the next date. -/
def save_results {ρ σ : Type} (serialize : ρ → Except Unit σ)
    (results_directory location : String) (results : List (String × ρ))
    (fs0 : List (String × σ)) : List (String × σ) :=
  results.foldl (fun fs entry =>
    match json_tricks_dump serialize fs
        (resultPath results_directory location entry.1) entry.2 with
    | .ok fs2 => fs2
    | .error _ => fs) fs0

/-- Closed form of `save_results`: starting from a filesystem disjoint from
the result paths, it appends exactly one complete file per successfully
serialized date, in order, and nothing for failing dates. -/
theorem save_results_eq {ρ σ : Type} (serialize : ρ → Except Unit σ)
    (rdir loc : String) (results : List (String × ρ)) :
    ∀ fs0 : List (String × σ),
      (∀ e ∈ results, ∀ f ∈ fs0, resultPath rdir loc e.1 ≠ f.1) →
      ((results.map (fun e => resultPath rdir loc e.1)).Nodup) →
      save_results serialize rdir loc results fs0 =
        fs0 ++ results.filterMap (fun e => (serialize e.2).toOption.map
          (fun s => (resultPath rdir loc e.1, s))) := by
  induction results with
  | nil => intro fs0 _ _; simp [save_results]
  | cons e rest ih =>
      intro fs0 hdisj hnodup
      simp only [List.map_cons, List.nodup_cons] at hnodup
      obtain ⟨hpe, hnd⟩ := hnodup
      have hstep : save_results serialize rdir loc (e :: rest) fs0 =
          save_results serialize rdir loc rest
            (match json_tricks_dump serialize fs0 (resultPath rdir loc e.1) e.2 with
             | .ok fs2 => fs2
             | .error _ => fs0) := rfl
      rw [hstep]
      cases hs : serialize e.2 with
      | error u =>
          rw [show (match json_tricks_dump serialize fs0 (resultPath rdir loc e.1) e.2 with
              | .ok fs2 => fs2
              | .error _ => fs0) = fs0 from by
            simp only [json_tricks_dump, hs]]
          rw [ih fs0 (fun x hx f hf => hdisj x (List.mem_cons_of_mem _ hx) f hf) hnd]
          simp [List.filterMap_cons, hs, Except.toOption]
      | ok s =>
          have hfe : fs0.filter (fun f => f.1 ≠ resultPath rdir loc e.1) = fs0 := by
            rw [List.filter_eq_self]
            intro a ha
            exact decide_eq_true (Ne.symm (hdisj e (List.mem_cons_self _ _) a ha))
          rw [show (match json_tricks_dump serialize fs0 (resultPath rdir loc e.1) e.2 with
              | .ok fs2 => fs2
              | .error _ => fs0) = fs0 ++ [(resultPath rdir loc e.1, s)] from by
            simp only [json_tricks_dump, hs, hfe]]
          have hdisj2 : ∀ x ∈ rest, ∀ f ∈ fs0 ++ [(resultPath rdir loc e.1, s)],
              resultPath rdir loc x.1 ≠ f.1 := by
            intro x hx f hf
            rcases List.mem_append.mp hf with hf | hf
            · exact hdisj x (List.mem_cons_of_mem _ hx) f hf
            · rcases List.mem_singleton.mp hf with rfl
              intro hcon
              simp only at hcon
              exact hpe (hcon ▸ List.mem_map_of_mem _ hx)
          rw [ih (fs0 ++ [(resultPath rdir loc e.1, s)]) hdisj2 hnd]
          simp [List.filterMap_cons, hs, Except.toOption]

/-- C9: over a results mapping with distinct dates, a date whose
serialization raises the missing-value error gets no result file at all,
while every other date still gets its complete result file — no single
date's failure aborts the run. -/
theorem save_results_skips_failed_day {ρ σ : Type} (serialize : ρ → Except Unit σ)
    (rdir loc : String) (results : List (String × ρ))
    (hnodup : (results.map (fun e => resultPath rdir loc e.1)).Nodup) :
    (∀ date r, (date, r) ∈ results → serialize r = .error () →
      ∀ s, (resultPath rdir loc date, s) ∉
        save_results serialize rdir loc results []) ∧
    (∀ date r s, (date, r) ∈ results → serialize r = .ok s →
      (resultPath rdir loc date, s) ∈ save_results serialize rdir loc results []) := by
  rw [save_results_eq serialize rdir loc results [] (by simp) hnodup]
  constructor
  · intro date r hmem hser s hcon
    rw [List.nil_append] at hcon
    rcases List.mem_filterMap.mp hcon with ⟨x, hx, hmap⟩
    cases hsx : serialize x.2 with
    | error u =>
        rw [hsx] at hmap
        simp [Except.toOption] at hmap
    | ok sx =>
        rw [hsx] at hmap
        simp only [Except.toOption, Option.map_some] at hmap
        obtain ⟨hpath, hval⟩ := Prod.mk.injEq .. ▸ Option.some.injEq .. ▸ hmap
        have hxeq : x = (date, r) :=
          List.inj_on_of_nodup_map hnodup hx hmem hpath
        rw [hxeq, hser] at hsx
        exact Except.noConfusion hsx
  · intro date r s hmem hser
    rw [List.nil_append]
    apply List.mem_filterMap.mpr
    refine ⟨(date, r), hmem, ?_⟩
    rw [hser]
    rfl

/-- Concrete instance of `save_results_skips_failed_day`: of two dates, the
first fails serialization and gets no file, the second gets its file. -/
theorem save_results_skips_failed_day_witness :
    ((resultPath "res" "loc" "2020-09-15", (5 : ℚ)) ∉
      save_results (fun x : ℚ => if x = 0 then .error () else .ok x) "res" "loc"
        [("2020-09-15", 0), ("2020-09-16", 1)] []) ∧
    ((resultPath "res" "loc" "2020-09-16", (1 : ℚ)) ∈
      save_results (fun x : ℚ => if x = 0 then .error () else .ok x) "res" "loc"
        [("2020-09-15", 0), ("2020-09-16", 1)] []) := by
  have hthm := save_results_skips_failed_day
    (fun x : ℚ => if x = 0 then .error () else .ok x) "res" "loc"
    [("2020-09-15", 0), ("2020-09-16", 1)] (by decide)
  exact ⟨hthm.1 "2020-09-15" 0 (by decide) (by simp) 5,
    hthm.2 "2020-09-16" 1 (1 : ℚ) (by decide) (by norm_num)⟩
